import Mathlib

/-!
Verification development for the c64.vscode extension sources.

The embedding below translates, over `List Char`, the pieces of the
repository that the stated properties concern:

* `src/src/kickassembler.ts`, `parseDiagnostics` (lines 70-156): the
  three regular-expression formats are translated as explicit
  backtracking matchers with JavaScript regex semantics (leftmost
  match, greedy quantifiers, `.` excluding line terminators, `\s`
  as JS whitespace).  `parseInt` on the matched digit groups is
  modelled as exact decimal evaluation (`digitsVal`), which agrees
  with JavaScript for all values below 2^53.
* `src/src/c64u/treeview.ts` and `src/unnamed/part_001`, `handleDrop`
  and its helpers: the remote CLI (`executeC64U` / `executeC64UJson`)
  is modelled as an oracle record `Cli`; the function returns the
  per-entry reports (with the exact user-visible message strings
  built by the code) together with the ordered list of CLI calls it
  issues.
* `src/src/c64u/file-open-manager.ts`, `setupSaveWatcher`: the save
  handler's decision logic and the `finally` clause, over an explicit
  state (file map plus upload-guard set).
-/

namespace C64

/-! ### Character classes (JavaScript regex semantics) -/

/-- JS `\s` restricted to the ASCII whitespace characters (the only
whitespace that can appear in assembler output). -/
def isJsSpace (c : Char) : Bool :=
  c = ' ' || c = '\t' || c = '\n' || c = '\r' || c = '\u000B' || c = '\u000C'

/-- JS `\d`. -/
def isDigitCh (c : Char) : Bool :=
  '0' ≤ c && c ≤ '9'

/-- JS `.` without the `s` flag: any character except a line terminator. -/
def isDotCh (c : Char) : Bool :=
  !(c = '\n' || c = '\r' || c = '\u2028' || c = '\u2029')

/-- Value of a run of decimal digits (model of `parseInt(s, 10)` on the
digit-only strings produced by a `(\d+)` capture; exact below 2^53). -/
def digitsVal (ds : List Char) : Nat :=
  ds.foldl (fun a c => a * 10 + (c.toNat - 48)) 0

/-- The decimal digit character for `d < 10`. -/
def digitChar10 (d : Nat) : Char :=
  Char.ofNat (48 + d)

/-- Accumulator-style decimal printing, with fuel (the fuel `n` always
suffices for printing `n`). -/
def natDigitsAux : Nat → Nat → List Char → List Char
  | 0, n, acc => digitChar10 (n % 10) :: acc
  | fuel + 1, n, acc =>
    if n < 10 then digitChar10 n :: acc
    else natDigitsAux fuel (n / 10) (digitChar10 (n % 10) :: acc)

/-- Decimal representation of a natural number (model of the template
interpolation of `counter` in `handleDrop`). -/
def natDigits (n : Nat) : List Char :=
  natDigitsAux n n []

/-- `String.prototype.split('\n')`: the empty string yields one empty
line, matching JavaScript. -/
def splitLines : List Char → List (List Char)
  | [] => [[]]
  | c :: rest =>
    if c = '\n' then [] :: splitLines rest
    else
      match splitLines rest with
      | r :: rs => (c :: r) :: rs
      | [] => [[c]]

/-- Strip a literal pattern from the front of a string; `some rest`
iff the string starts with the pattern. -/
def stripLit : List Char → List Char → Option (List Char)
  | [], s => some s
  | _ :: _, [] => none
  | p :: ps, c :: s => if c = p then stripLit ps s else none

/-- Does the second list start with the first? -/
def startsWithL : List Char → List Char → Bool
  | [], _ => true
  | _ :: _, [] => false
  | p :: ps, c :: s => p = c && startsWithL ps s

/-- Substring containment (model of `String.prototype.includes`). -/
def containsSub (pat : List Char) : List Char → Bool
  | [] => startsWithL pat []
  | c :: rest => startsWithL pat (c :: rest) || containsSub pat rest

/-! ### The three Kick Assembler output formats

`format1Regex = /\(([^)]+)\s+(\d+):(\d+)\)\s*(Error|Warning):\s*(.+)/`
`format2Regex = /at line (\d+), column (\d+) in (.+)/`
`format3Regex = /^([^:]+):(\d+):\s*(.+)$/`

Each is translated as a backtracking matcher.  Greedy quantifier
backtracking only matters in two places: the `([^)]+)` group of
format 1 (handled by `regionSplitGo`, longest split first) and a
`\s*(.+)` tail (handled by `wsDotPlus` / `wsDotPlusEnd`: the `\s*`
prefers the longest whitespace run and gives characters back to `.+`
only when `.+` would otherwise fail). -/

/-- `\s*(.+)` at the end of a pattern: returns the `(.+)` capture. -/
def wsDotPlus : List Char → Option (List Char)
  | [] => none
  | c :: rest =>
    if isJsSpace c then
      match wsDotPlus rest with
      | some m => some m
      | none =>
        if isDotCh c then some (List.takeWhile isDotCh (c :: rest)) else none
    else if isDotCh c then some (List.takeWhile isDotCh (c :: rest))
    else none

/-- `\s*(.+)$` (format 3): the capture must extend to the end of the
string, since JS `$` without the `m` flag only matches at the end. -/
def wsDotPlusEnd : List Char → Option (List Char)
  | [] => none
  | c :: rest =>
    if isJsSpace c then
      match wsDotPlusEnd rest with
      | some m => some m
      | none =>
        if isDotCh c && rest.all isDotCh then some (c :: rest) else none
    else if isDotCh c && rest.all isDotCh then some (c :: rest)
    else none

/-- `\s+(\d+):(\d+)` consuming the whole input (the tail of the
region between the parentheses of format 1).  Deterministic: shrinking
`\s+` leaves whitespace in front of `\d+`, and shrinking the first
`(\d+)` leaves a digit where `:` is required. -/
def tailParse (t : List Char) : Option (List Char × List Char) :=
  let ws := t.takeWhile isJsSpace
  if ws.isEmpty then none
  else
    let t1 := t.drop ws.length
    let d1 := t1.takeWhile isDigitCh
    if d1.isEmpty then none
    else
      match t1.drop d1.length with
      | ':' :: t2 => if !t2.isEmpty && t2.all isDigitCh then some (d1, t2) else none
      | _ => none

/-- Greedy split of the region between `(` and the first `)`: the
`([^)]+)` group takes the longest prefix that leaves a valid
`\s+(\d+):(\d+)` tail. -/
def regionSplitGo (region : List Char) : Nat → Option (List Char × List Char)
  | 0 => none
  | k + 1 =>
    match tailParse (region.drop (k + 1)) with
    | some r => some r
    | none => regionSplitGo region k

def regionSplit (region : List Char) : Option (List Char × List Char) :=
  regionSplitGo region (region.length - 1)

/-- `\s*(Error|Warning)` : skips whitespace (deterministically: neither
alternative starts with a whitespace character) and matches the
alternation, returning the capture and the rest. -/
def sevRest (s : List Char) : Option (List Char × List Char) :=
  let t := s.dropWhile isJsSpace
  match stripLit ("Error".data) t with
  | some r => some ("Error".data, r)
  | none =>
    match stripLit ("Warning".data) t with
    | some r => some ("Warning".data, r)
    | none => none

/-- The `(Error|Warning):\s*(.+)` tail of format 1, after the closing
parenthesis, given the already-split digit groups. -/
def f1Sev (d1 d2 rest2 : List Char) :
    Option (List Char × List Char × List Char × List Char) :=
  match sevRest rest2 with
  | some (sev, afterSev) =>
    (match afterSev with
     | ':' :: rest3 =>
       (match wsDotPlus rest3 with
        | some msg => some (d1, d2, sev, msg)
        | none => none)
     | _ => none)
  | none => none

/-- Format 1 after the opening parenthesis: split the region up to the
first `)` (which is necessarily the `\)` of the pattern, since every
character the region groups may match excludes `)`), then match the
tail. -/
def f1AfterParen (rest : List Char) :
    Option (List Char × List Char × List Char × List Char) :=
  match rest.drop ((rest.takeWhile (fun c => c ≠ ')')).length) with
  | ')' :: rest2 =>
    (match regionSplit (rest.takeWhile (fun c => c ≠ ')')) with
     | some (d1, d2) => f1Sev d1 d2 rest2
     | none => none)
  | _ => none

/-- Format 1 anchored at the start of `s`.  Returns the captures the
code consumes: line digits, column digits, severity token, message
(the `([^)]+)` filename capture is destructured away by the code). -/
def f1At : List Char → Option (List Char × List Char × List Char × List Char)
  | [] => none
  | c :: rest => if c = '(' then f1AfterParen rest else none

/-- Unanchored leftmost match of format 1 (`String.prototype.match`
with a non-global regex). -/
def f1Search : List Char → Option (List Char × List Char × List Char × List Char)
  | [] => none
  | c :: rest =>
    match f1At (c :: rest) with
    | some r => some r
    | none => f1Search rest

/-- Format 2 anchored at the start of `s`: `at line (\d+), column
(\d+) in (.+)`.  The filename capture is unused by the code, so only
the digit groups are returned; the `(.+)` must still match (one
non-line-terminator character suffices). -/
def f2At (s : List Char) : Option (List Char × List Char) :=
  match stripLit ("at line ".data) s with
  | some t1 =>
    let d1 := t1.takeWhile isDigitCh
    if d1.isEmpty then none
    else
      match stripLit (", column ".data) (t1.drop d1.length) with
      | some t2 =>
        let d2 := t2.takeWhile isDigitCh
        if d2.isEmpty then none
        else
          match stripLit (" in ".data) (t2.drop d2.length) with
          | some t3 =>
            (match t3 with
             | c :: _ => if isDotCh c then some (d1, d2) else none
             | [] => none)
          | none => none
      | none => none
  | none => none

/-- Unanchored leftmost match of format 2. -/
def f2Search : List Char → Option (List Char × List Char)
  | [] => none
  | c :: rest =>
    match f2At (c :: rest) with
    | some r => some r
    | none => f2Search rest

/-- Format 3, anchored on both sides: `^([^:]+):(\d+):\s*(.+)$`.  The
filename capture (up to the first colon) is destructured away by the
code; the line digits and message are returned. -/
def f3Match (s : List Char) : Option (List Char × List Char) :=
  let g1 := s.takeWhile (fun c => c ≠ ':')
  if g1.isEmpty then none
  else
    match s.drop g1.length with
    | ':' :: t1 =>
      let d := t1.takeWhile isDigitCh
      if d.isEmpty then none
      else
        match t1.drop d.length with
        | ':' :: t2 =>
          (match wsDotPlusEnd t2 with
           | some msg => some (d, msg)
           | none => none)
        | _ => none
    | _ => none

/-! ### Diagnostic records -/

inductive Sev where
  | error
  | warning
deriving DecidableEq

/-- One parsed diagnostic.  The code also attaches a constant source
tag and a range ending at `Number.MAX_VALUE` on the same line; those
carry no information and are omitted.  `line` and `col` are `Int`
because the code subtracts 1 from the (non-negative) parsed values. -/
structure Diag where
  line : Int
  col : Int
  severity : Sev
  message : List Char
deriving DecidableEq

/-- JS `a || b` for the `lastError || line` expression: an empty
remembered string is falsy. -/
def jsOr (o : Option (List Char)) (dflt : List Char) : List Char :=
  match o with
  | some m => if m.isEmpty then dflt else m
  | none => dflt

/-- `severityStr.toLowerCase() === 'warning'`. -/
def sevOf (sev : List Char) : Sev :=
  if sev.map Char.toLower = ("warning".data) then Sev.warning else Sev.error

/-- One iteration of the `for (const line of lines)` loop: given the
remembered `lastError` and the line, produce the updated `lastError`
and the diagnostics contributed by this line. -/
def processLine (lastError : Option (List Char)) (line : List Char) :
    Option (List Char) × List Diag :=
  match f1Search line with
  | some (d1, d2, sev, msg) =>
    (some msg,
      [⟨(digitsVal d1 : Int) - 1, (digitsVal d2 : Int) - 1, sevOf sev, msg⟩])
  | none =>
    match f2Search line with
    | some (d1, d2) =>
      (lastError,
        [⟨(digitsVal d1 : Int) - 1, (digitsVal d2 : Int) - 1, Sev.error,
          jsOr lastError line⟩])
    | none =>
      match f3Match line with
      | some (d, msg) =>
        (lastError, [⟨(digitsVal d : Int) - 1, 0, Sev.error, msg⟩])
      | none => (lastError, [])

/-- The loop over all lines, accumulating diagnostics. -/
def parseGo : Option (List Char) → List (List Char) → List Diag
  | _, [] => []
  | le, l :: ls => (processLine le l).2 ++ parseGo (processLine le l).1 ls

/-- The `lastError` value after processing a list of lines. -/
def parseSt : Option (List Char) → List (List Char) → Option (List Char)
  | le, [] => le
  | le, l :: ls => parseSt (processLine le l).1 ls

/-- The message of the last (most recent) format-1 match in a list of
lines, if any. -/
def lastPrimaryMsg : List (List Char) → Option (List Char)
  | [] => none
  | l :: ls =>
    match lastPrimaryMsg ls with
    | some m => some m
    | none =>
      match f1Search l with
      | some (_, _, _, msg) => some msg
      | none => none

/-- `parseDiagnostics` of `kickassembler.ts` (the diagnostics list it
builds for the build's source file; publishing to the collection is a
collaborator call). -/
def parseDiagnostics (output : List Char) : List Diag :=
  parseGo none (splitLines output)

/-! ### Tree view drag and drop (`treeview.ts` / `part_001`)

Path helpers model the `path.basename` / `path.extname` / string
slicing the code applies to the slash-separated remote paths it
builds itself (absolute, no trailing slash, not `.` or `..`). -/

/-- `path.basename(p)`: the component after the last slash. -/
def basenameOf (p : List Char) : List Char :=
  (p.reverse.takeWhile (fun c => c ≠ '/')).reverse

/-- `p.substring(0, p.lastIndexOf('/')) || '/'` (the source-directory
computation in `handleDrop`): an empty prefix is falsy, giving `/`. -/
def jsDirOf (p : List Char) : List Char :=
  let k := (p.reverse.takeWhile (fun c => c ≠ '/')).length
  if k = p.length then ("/".data)
  else
    let d := p.take (p.length - k - 1)
    if d.isEmpty then ("/".data) else d

/-- The pair `(path.basename(f, path.extname(f)), path.extname(f))`
for a plain filename: the extension starts at the last dot, unless
that dot is the leading character (or there is no dot), in which case
the extension is empty. -/
def extSplit (name : List Char) : List Char × List Char :=
  let k := (name.reverse.takeWhile (fun c => c ≠ '.')).length
  if k = name.length || k + 1 = name.length then (name, [])
  else (name.take (name.length - k - 1), name.drop (name.length - k - 1))

/-- The conflict-rename candidate for counter `k`:
`` `${baseName}_${counter}${fileExt}` ``. -/
def genName (base ext : List Char) (k : Nat) : List Char :=
  base ++ ("_".data) ++ natDigits k ++ ext

/-- The `do { ... } while (existingNames.has(finalFileName))` loop,
started at counter `k`, with fuel (fuel `existing.length + 1` always
suffices, as proved below). -/
def firstFreeAux (existing : List (List Char)) (base ext : List Char) :
    Nat → Nat → List Char
  | 0, k => genName base ext k
  | fuel + 1, k =>
    let cand := genName base ext k
    if cand ∈ existing then firstFreeAux existing base ext fuel (k + 1) else cand

/-- The destination filename `handleDrop` chooses once the target
listing is available: the original name if it does not collide,
otherwise the first free `base_k.ext` starting from `k = 1`. -/
def uniqueDestName (existing : List (List Char)) (fileName : List Char) : List Char :=
  if fileName ∈ existing then
    firstFreeAux existing (extSplit fileName).1 (extSplit fileName).2
      (existing.length + 1) 1
  else fileName

/-- Result of one `executeC64U` invocation (`C64UResult`; the
`output` field is never branched on by `handleDrop` and is omitted). -/
structure CliResult where
  success : Bool
  error : Option (List Char)
deriving DecidableEq

/-- Oracle for the remote CLI: what each call would return.
`lsNames` models `executeC64UJson(['fs','ls',dir])` with the `Name`
fields extracted (`none` is the `null` returned on command failure or
unparsable JSON). -/
structure Cli where
  lsNames : List Char → Option (List (List Char))
  mvRes : List Char → List Char → CliResult
  cpRes : List Char → List Char → CliResult
  rmRes : List Char → CliResult

/-- One remote CLI invocation issued by `handleDrop`. -/
inductive CliCall where
  | ls (dir : List Char)
  | mv (src dst : List Char)
  | cp (src dst : List Char)
  | rm (p : List Char)
deriving DecidableEq

/-- `moveResult.error?.includes('450')`: optional chaining on a
missing error is falsy. -/
def errHas450 (e : Option (List Char)) : Bool :=
  match e with
  | some s => containsSub ("450".data) s
  | none => false

/-- Template interpolation of a possibly-undefined error string. -/
def errText (e : Option (List Char)) : List Char :=
  match e with
  | some s => s
  | none => ("undefined".data)

/-- `` targetDir === '/' ? `/${n}` : `${targetDir}/${n}` ``. -/
def destPath (targetDir n : List Char) : List Char :=
  if targetDir = ("/".data) then '/' :: n else targetDir ++ '/' :: n

/-- The destination filename including the listing step: if the
listing call returns `null`, the collision check is skipped and the
original name is kept. -/
def planName (cli : Cli) (targetDir fileName : List Char) : List Char :=
  match cli.lsNames targetDir with
  | some names => uniqueDestName names fileName
  | none => fileName

inductive ItemType where
  | directory
  | diskimage
  | diskimageGcr
  | program
  | sid
  | cartridge
  | textfile
  | binaryfile
  | file
  | parent
  | message
  | error
  | machineRoot
  | machineAction
  | filesystemRoot
deriving DecidableEq

structure TreeItem where
  itemType : ItemType
  resourcePath : List Char
deriving DecidableEq

/-- The special item types `handleDrop` skips (`part_001` line 230;
`treeview.ts` only has the first three, plus the same behaviour). -/
def isSpecialItem (t : ItemType) : Bool :=
  t = ItemType.parent || t = ItemType.message || t = ItemType.error ||
  t = ItemType.machineRoot || t = ItemType.machineAction || t = ItemType.filesystemRoot

/-- The per-entry outcome, carrying the exact user-visible message the
code builds for it (`showErrorMessage` / `showInformationMessage`). -/
inductive EntryReport where
  | skippedSpecial
  | skippedSameDir
  | copyFailed (msg : List Char)
  | partialCopy (msg : List Char)
  | moveFailed (msg : List Char)
  | movedRenamed (msg : List Char)
  | moved (msg : List Char)
deriving DecidableEq

/-- Is the report a move-success report (plain or renamed)? -/
def isMovedReport : EntryReport → Bool
  | EntryReport.moved _ => true
  | EntryReport.movedRenamed _ => true
  | _ => false

/-- The body of the `for (const item of draggedItems)` loop of
`handleDrop`: the entry's report and the ordered CLI calls issued for
it.  (The surrounding `try`/`catch` is unreachable in this model
because every modelled collaborator resolves rather than throws.) -/
def processEntry (cli : Cli) (targetDir : List Char) (it : TreeItem) :
    EntryReport × List CliCall :=
  if isSpecialItem it.itemType then (EntryReport.skippedSpecial, [])
  else
    let fileName := basenameOf it.resourcePath
    let sourceDir := jsDirOf it.resourcePath
    if sourceDir = targetDir then (EntryReport.skippedSameDir, [])
    else
      let finalFileName := planName cli targetDir fileName
      let finalPath := destPath targetDir finalFileName
      let lsCall := CliCall.ls targetDir
      let mvCall := CliCall.mv it.resourcePath finalPath
      let mv := cli.mvRes it.resourcePath finalPath
      if !mv.success && errHas450 mv.error then
        let cpCall := CliCall.cp it.resourcePath finalPath
        let cp := cli.cpRes it.resourcePath finalPath
        if !cp.success then
          (EntryReport.copyFailed
            (("Failed to copy ".data) ++ fileName ++ (": ".data) ++ errText cp.error),
           [lsCall, mvCall, cpCall])
        else
          let rmCall := CliCall.rm it.resourcePath
          let rm := cli.rmRes it.resourcePath
          if !rm.success then
            (EntryReport.partialCopy
              (("Copied ".data) ++ fileName ++
                (" but failed to delete original: ".data) ++ errText rm.error),
             [lsCall, mvCall, cpCall, rmCall])
          else
            (if finalFileName ≠ fileName then
               EntryReport.movedRenamed
                 (("Moved ".data) ++ fileName ++ (" to ".data) ++ targetDir ++
                   ("/".data) ++ finalFileName ++ (" (renamed to avoid conflict)".data))
             else
               EntryReport.moved (("Moved ".data) ++ fileName ++ (" to ".data) ++ targetDir),
             [lsCall, mvCall, cpCall, rmCall])
      else if !mv.success then
        (EntryReport.moveFailed
          (("Failed to move ".data) ++ fileName ++ (": ".data) ++ errText mv.error),
         [lsCall, mvCall])
      else
        (if finalFileName ≠ fileName then
           EntryReport.movedRenamed
             (("Moved ".data) ++ fileName ++ (" to ".data) ++ targetDir ++
               ("/".data) ++ finalFileName ++ (" (renamed to avoid conflict)".data))
         else
           EntryReport.moved (("Moved ".data) ++ fileName ++ (" to ".data) ++ targetDir),
         [lsCall, mvCall])

/-- Target-directory resolution at the top of `handleDrop`: no target
means the root; a directory target is itself; otherwise the parent of
the target (`lastSlash > 0 ? substring(0, lastSlash) : '/'`). -/
def resolveTargetDir : Option TreeItem → List Char
  | none => ("/".data)
  | some t =>
    if t.itemType = ItemType.directory then t.resourcePath
    else
      let k := (t.resourcePath.reverse.takeWhile (fun c => c ≠ '/')).length
      if k = t.resourcePath.length then ("/".data)
      else
        let i := t.resourcePath.length - k - 1
        if 0 < i then t.resourcePath.take i else ("/".data)

/-- `handleDrop` for a resolved batch of dragged items: the `Bool`
records whether the batch was accepted (false exactly when the target
is the root, which is rejected before any CLI call), then the
per-entry reports, then every CLI call issued, in order. -/
def handleDrop (cli : Cli) (target : Option TreeItem) (items : List TreeItem) :
    Bool × List EntryReport × List CliCall :=
  let targetDir := resolveTargetDir target
  if targetDir = ("/".data) then (false, [], [])
  else
    (true,
     items.map (fun it => (processEntry cli targetDir it).1),
     (items.map (fun it => (processEntry cli targetDir it).2)).flatten)

/-! ### Save watcher (`file-open-manager.ts`) -/

/-- `CachedFile` of `file-open-manager.ts`. -/
structure CachedFile where
  localPath : List Char
  remotePath : List Char
  isText : Bool
deriving DecidableEq

/-- The manager state the save handler reads and writes: the
`fileMap` (as an association list) and the `uploading` guard set (as
a duplicate-free list; `Set.add` is only reached when the element is
absent). -/
structure SaveSt where
  fileMap : List (List Char × CachedFile)
  uploading : List (List Char)
deriving DecidableEq

/-- `Map.get`. -/
def lookupMap : List (List Char × CachedFile) → List Char → Option CachedFile
  | [], _ => none
  | (k, v) :: rest, p => if k = p then some v else lookupMap rest p

/-- The synchronous prefix of the `onDidSaveTextDocument` handler, up
to and including `uploading.add`: returns whether an upload is
started, and the state afterwards.  A path that is untracked, binary,
or already in the guard set starts no upload and leaves the state
unchanged (the event is dropped, not queued). -/
def saveDecision (st : SaveSt) (p : List Char) : Bool × SaveSt :=
  match lookupMap st.fileMap p with
  | none => (false, st)
  | some c =>
    if !c.isText then (false, st)
    else if p ∈ st.uploading then (false, st)
    else (true, { st with uploading := p :: st.uploading })

/-- How an in-flight upload ends: CLI success, CLI-reported failure,
or a thrown error caught by the handler. -/
inductive UploadOutcome where
  | ok
  | reportedFailure (err : List Char)
  | thrown (err : List Char)
deriving DecidableEq

/-- The `finally` clause of the handler: `uploading.delete(localPath)`,
executed for every outcome. -/
def finishUpload (st : SaveSt) (p : List Char) (o : UploadOutcome) : SaveSt :=
  match o with
  | _ => { st with uploading := st.uploading.filter (fun q => q ≠ p) }

/-- A CLI oracle whose `fs mv` fails with the cross-device code 450
and whose fallback copy and delete both succeed. -/
def cliCross : Cli :=
  ⟨fun _ => some [],
   fun _ _ => ⟨false, some (("error 450").data)⟩,
   fun _ _ => ⟨true, none⟩,
   fun _ => ⟨true, none⟩⟩

/-- A CLI oracle whose `fs mv` fails with the cross-device code 450,
whose fallback copy succeeds, and whose delete of the source fails. -/
def cliPartial : Cli :=
  ⟨fun _ => some [],
   fun _ _ => ⟨false, some (("error 450").data)⟩,
   fun _ _ => ⟨true, none⟩,
   fun _ => ⟨false, some (("disk full").data)⟩⟩

/-- A CLI oracle whose listing of the target directory already
contains `FOO.PRG`, with every mutation succeeding. -/
def cliListFoo : Cli :=
  ⟨fun _ => some [("FOO.PRG").data],
   fun _ _ => ⟨true, none⟩,
   fun _ _ => ⟨true, none⟩,
   fun _ => ⟨true, none⟩⟩

/-- A CLI oracle whose listing call fails (`executeC64UJson` returns
`null`), with every mutation succeeding. -/
def cliLsFails : Cli :=
  ⟨fun _ => none,
   fun _ _ => ⟨true, none⟩,
   fun _ _ => ⟨true, none⟩,
   fun _ => ⟨true, none⟩⟩

/-- The dragged tree item used by the concrete drop scenarios. -/
def itemFooPrg : TreeItem :=
  ⟨ItemType.program, ("/Usb0/FOO.PRG").data⟩

/-! ## Lemmas about the diagnostics parser -/

theorem splitLines_eq_single (l : List Char) (h : ('\n') ∉ l) :
    splitLines l = [l] := by
  induction l with
  | nil => rfl
  | cons c rest ih =>
    have hc : c ≠ '\n' := fun he => h (he ▸ List.mem_cons_self c rest)
    have hr : ('\n') ∉ rest := fun hm => h (List.mem_cons_of_mem c hm)
    simp [splitLines, hc, ih hr]

/-- Only a format-1 match updates the remembered `lastError`. -/
theorem processLine_fst (le : Option (List Char)) (l : List Char) :
    (processLine le l).1 =
      (match f1Search l with
       | some (_, _, _, m) => some m
       | none => le) := by
  rw [processLine]
  rcases h1 : f1Search l with _ | ⟨d1, d2, sev, m⟩
  · rcases h2 : f2Search l with _ | ⟨a, b⟩
    · rcases h3 : f3Match l with _ | ⟨d, m3⟩ <;> simp
    · simp
  · simp

/-- After any list of lines, the remembered message is the message of
the most recent format-1 match, or the initial value if there is
none. -/
theorem parseSt_eq (ls : List (List Char)) :
    ∀ le, parseSt le ls =
      (match lastPrimaryMsg ls with
       | some m => some m
       | none => le) := by
  induction ls with
  | nil => intro le; rfl
  | cons l ls ih =>
    intro le
    rw [parseSt, lastPrimaryMsg, ih, processLine_fst]
    rcases hm : lastPrimaryMsg ls with _ | m
    · rcases h1 : f1Search l with _ | ⟨a, b, c, m1⟩ <;> simp
    · simp

theorem wsDotPlus_ne_nil : ∀ s m, wsDotPlus s = some m → m ≠ [] := by
  intro s
  induction s with
  | nil => intro m h; simp [wsDotPlus] at h
  | cons c rest ih =>
    intro m h
    rw [wsDotPlus] at h
    split at h
    · split at h
      · rename_i m2 hw
        injection h with h
        subst h
        exact ih _ hw
      · split at h
        · rename_i hd
          injection h with h
          subst h
          simp [List.takeWhile_cons, hd]
        · exact absurd h (by simp)
    · split at h
      · rename_i hd
        injection h with h
        subst h
        simp [List.takeWhile_cons, hd]
      · exact absurd h (by simp)

theorem f1Sev_msg_ne_nil (d1 d2 rest2 a b c m : List Char)
    (h : f1Sev d1 d2 rest2 = some (a, b, c, m)) : m ≠ [] := by
  rw [f1Sev] at h
  split at h
  · split at h
    · split at h
      · rename_i msg hw
        injection h with h
        simp only [Prod.mk.injEq] at h
        obtain ⟨-, -, -, h4⟩ := h
        exact h4 ▸ wsDotPlus_ne_nil _ _ hw
      · exact absurd h (by simp)
    · exact absurd h (by simp)
  · exact absurd h (by simp)

theorem f1At_msg_ne_nil (s : List Char) (a b c m : List Char)
    (h : f1At s = some (a, b, c, m)) : m ≠ [] := by
  cases s with
  | nil => simp [f1At] at h
  | cons x rest =>
    rw [f1At] at h
    split at h
    · rw [f1AfterParen] at h
      split at h
      · split at h
        · exact f1Sev_msg_ne_nil _ _ _ _ _ _ _ h
        · exact absurd h (by simp)
      · exact absurd h (by simp)
    · exact absurd h (by simp)

theorem f1Search_msg_ne_nil : ∀ l a b c m,
    f1Search l = some (a, b, c, m) → m ≠ [] := by
  intro l
  induction l with
  | nil => intro a b c m h; simp [f1Search] at h
  | cons x rest ih =>
    intro a b c m h
    rw [f1Search] at h
    split at h
    · rename_i r heq
      injection h with h
      subst h
      exact f1At_msg_ne_nil _ _ _ _ _ heq
    · exact ih _ _ _ _ h

theorem lastPrimaryMsg_ne_nil : ∀ ls m, lastPrimaryMsg ls = some m → m ≠ [] := by
  intro ls
  induction ls with
  | nil => intro m h; simp [lastPrimaryMsg] at h
  | cons l ls ih =>
    intro m h
    rw [lastPrimaryMsg] at h
    split at h
    · rename_i m1 hm1
      injection h with h
      subst h
      exact ih _ hm1
    · split at h
      · rename_i heq
        injection h with h
        subst h
        exact f1Search_msg_ne_nil _ _ _ _ _ heq
      · exact absurd h (by simp)

theorem parseGo_eq_nil (ls : List (List Char))
    (h : ∀ l ∈ ls, f1Search l = none ∧ f2Search l = none ∧ f3Match l = none) :
    ∀ le, parseGo le ls = [] := by
  induction ls with
  | nil => intro le; rfl
  | cons l ls ih =>
    intro le
    obtain ⟨h1, h2, h3⟩ := h l (List.mem_cons_self l ls)
    have hpl : processLine le l = (le, []) := by
      simp [processLine, h1, h2, h3]
    rw [parseGo, hpl]
    simpa using ih (fun x hx => h x (List.mem_cons_of_mem l hx)) le

/-! ## Claims about the diagnostics parser -/

/-- Claim C1: for every output line matched by the primary bracketed
form `(file L:C) Severity: msg`, the parser contributes exactly one
diagnostic for that line, with line number `L - 1`, column `C - 1`,
severity `warning` iff the severity token lower-cases to `warning`
(`error` otherwise), and message `msg`; and for a single-line output
consisting of such a line, `parseDiagnostics` yields exactly that one
record. -/
theorem c1_primary_form (le : Option (List Char)) (l d1 d2 sev msg : List Char)
    (h : f1Search l = some (d1, d2, sev, msg)) (hnl : ('\n') ∉ l) :
    processLine le l = (some msg,
      [⟨(digitsVal d1 : Int) - 1, (digitsVal d2 : Int) - 1,
        (if sev.map Char.toLower = ("warning").data then Sev.warning else Sev.error),
        msg⟩]) ∧
    parseDiagnostics l =
      [⟨(digitsVal d1 : Int) - 1, (digitsVal d2 : Int) - 1,
        (if sev.map Char.toLower = ("warning").data then Sev.warning else Sev.error),
        msg⟩] := by
  have hp : ∀ le2 : Option (List Char), processLine le2 l = (some msg,
      [⟨(digitsVal d1 : Int) - 1, (digitsVal d2 : Int) - 1,
        (if sev.map Char.toLower = ("warning").data then Sev.warning else Sev.error),
        msg⟩]) := by
    intro le2
    simp [processLine, h, sevOf]
  refine ⟨hp le, ?_⟩
  rw [parseDiagnostics, splitLines_eq_single l hnl]
  simp [parseGo, hp none]

/-- Concrete instance of claim C1 at the specification's example. -/
theorem c1_primary_form_witness :
    parseDiagnostics (("(main.asm 19:1) Error: Too few arguments").data) =
      [⟨18, 0, Sev.error, ("Too few arguments").data⟩] := by
  have h := (c1_primary_form none (("(main.asm 19:1) Error: Too few arguments").data)
    (("19").data) (("1").data) (("Error").data) (("Too few arguments").data)
    (by decide) (by decide)).2
  exact h.trans (by decide)

/-- Claim C9: the parser is total (every Lean function is; what
remains of the claim over the embedding): the empty output yields the
empty list, a line matching none of the three patterns contributes no
record and leaves the remembered message unchanged, and an output all
of whose lines match no pattern yields the empty list. -/
theorem c9_parser_total :
    parseDiagnostics [] = [] ∧
    (∀ le l, f1Search l = none → f2Search l = none → f3Match l = none →
      processLine le l = (le, [])) ∧
    (∀ output,
      (∀ l ∈ splitLines output,
        f1Search l = none ∧ f2Search l = none ∧ f3Match l = none) →
      parseDiagnostics output = []) := by
  refine ⟨by decide, ?_, ?_⟩
  · intro le l h1 h2 h3
    simp [processLine, h1, h2, h3]
  · intro output h
    rw [parseDiagnostics]
    exact parseGo_eq_nil (splitLines output) h none

/-- Concrete instance of claim C9: empty output and a no-match line
both yield no diagnostics. -/
theorem c9_parser_total_witness :
    parseDiagnostics [] = [] ∧
    parseDiagnostics (("java -jar KickAss.jar main.asm").data) = [] := by
  exact ⟨c9_parser_total.1, c9_parser_total.2.2 _ (by decide)⟩

/-- Claim C7: a continuation-form line `at line N, column M in file`
(one not also matched by the primary form, which is tried first)
contributes exactly one record whose message is the message of the
most recent preceding primary-form match in the same parse — or the
raw line itself if no primary-form line has matched yet — and whose
severity is always `error`, with line `N - 1` and column `M - 1`. -/
theorem c7_continuation_form (ls : List (List Char)) (l d1 d2 : List Char)
    (h2 : f2Search l = some (d1, d2)) (h1 : f1Search l = none) :
    (processLine (parseSt none ls) l).2 =
      [⟨(digitsVal d1 : Int) - 1, (digitsVal d2 : Int) - 1, Sev.error,
        (lastPrimaryMsg ls).getD l⟩] := by
  have hst : parseSt none ls = lastPrimaryMsg ls := by
    rw [parseSt_eq]
    cases lastPrimaryMsg ls <;> rfl
  have hjs : jsOr (lastPrimaryMsg ls) l = (lastPrimaryMsg ls).getD l := by
    rcases hm : lastPrimaryMsg ls with _ | m
    · rfl
    · have hne := lastPrimaryMsg_ne_nil ls m hm
      simp [jsOr, hne]
  rw [hst]
  simp [processLine, h1, h2, hjs]

/-- Concrete instance of claim C7: a continuation line after the
example error line reuses its message. -/
theorem c7_continuation_form_witness :
    (processLine (parseSt none [("(main.asm 19:1) Error: Too few arguments").data])
        (("at line 19, column 1 in main.asm").data)).2 =
      [⟨18, 0, Sev.error, ("Too few arguments").data⟩] := by
  have h := c7_continuation_form [("(main.asm 19:1) Error: Too few arguments").data]
    (("at line 19, column 1 in main.asm").data) (("19").data) (("1").data)
    (by decide) (by decide)
  exact h.trans (by decide)

/-! ## Lemmas about the conflict-rename counter -/

theorem natDigitsAux_append (fuel : Nat) :
    ∀ n acc, natDigitsAux fuel n acc = natDigitsAux fuel n [] ++ acc := by
  induction fuel with
  | zero => intro n acc; rfl
  | succ fuel ih =>
    intro n acc
    rw [natDigitsAux, natDigitsAux]
    by_cases h : n < 10
    · simp [h]
    · rw [if_neg h, if_neg h, ih (n / 10) (digitChar10 (n % 10) :: acc),
        ih (n / 10) [digitChar10 (n % 10)]]
      simp

theorem digitChar10_toNat (d : Nat) (h : d < 10) :
    (digitChar10 d).toNat = 48 + d := by
  interval_cases d <;> decide

theorem digitsVal_append_single (xs : List Char) (c : Char) :
    digitsVal (xs ++ [c]) = digitsVal xs * 10 + (c.toNat - 48) := by
  simp [digitsVal, List.foldl_append]

theorem digitsVal_natDigitsAux (fuel : Nat) :
    ∀ n, n ≤ fuel → digitsVal (natDigitsAux fuel n []) = n := by
  induction fuel with
  | zero =>
    intro n hn
    interval_cases n
    decide
  | succ fuel ih =>
    intro n hn
    rw [natDigitsAux]
    by_cases h : n < 10
    · rw [if_pos h]
      have hc := digitChar10_toNat n h
      simp [digitsVal, hc]
    · rw [if_neg h, natDigitsAux_append, digitsVal_append_single]
      have hd : n / 10 < n := Nat.div_lt_self (by omega) (by omega)
      rw [ih (n / 10) (by omega), digitChar10_toNat (n % 10) (Nat.mod_lt n (by omega))]
      omega

theorem digitsVal_natDigits (n : Nat) : digitsVal (natDigits n) = n :=
  digitsVal_natDigitsAux n n le_rfl

theorem natDigits_inj {a b : Nat} (h : natDigits a = natDigits b) : a = b := by
  have h2 := congrArg digitsVal h
  rwa [digitsVal_natDigits, digitsVal_natDigits] at h2

theorem genName_inj (base ext : List Char) {a b : Nat}
    (h : genName base ext a = genName base ext b) : a = b := by
  rw [genName, genName, List.append_assoc, List.append_assoc,
    List.append_assoc, List.append_assoc] at h
  have h1 := List.append_cancel_left h
  have h2 := List.append_cancel_left h1
  exact natDigits_inj (List.append_cancel_right h2)

/-- Pigeonhole: among the candidates `base_1.ext` … `base_(n+1).ext`
(all distinct), at least one is not in a listing of length `n`. -/
theorem exists_free_name (names : List (List Char)) (base ext : List Char) :
    ∃ j, 1 ≤ j ∧ j ≤ names.length + 1 ∧ genName base ext j ∉ names := by
  by_contra hall
  push_neg at hall
  have hsub : ((List.range (names.length + 1)).map
      (fun i => genName base ext (i + 1))) ⊆ names := by
    intro x hx
    rw [List.mem_map] at hx
    obtain ⟨i, hi, rfl⟩ := hx
    rw [List.mem_range] at hi
    exact hall (i + 1) (by omega) (by omega)
  have hnd : ((List.range (names.length + 1)).map
      (fun i => genName base ext (i + 1))).Nodup := by
    refine List.Nodup.map ?_ (List.nodup_range _)
    intro a b hab
    have h2 := genName_inj base ext hab
    omega
  have hle := (List.subperm_of_subset hnd hsub).length_le
  simp at hle

/-- Correctness of the fuelled rename loop: if some counter in the
fuel window is free, the loop returns the candidate for the smallest
free counter at or above the start. -/
theorem firstFreeAux_spec (names : List (List Char)) (base ext : List Char) :
    ∀ fuel k, (∃ j, k ≤ j ∧ j < k + fuel ∧ genName base ext j ∉ names) →
      ∃ kk, k ≤ kk ∧ genName base ext kk ∉ names ∧
        (∀ j, k ≤ j → j < kk → genName base ext j ∈ names) ∧
        firstFreeAux names base ext fuel k = genName base ext kk := by
  intro fuel
  induction fuel with
  | zero =>
    intro k h
    obtain ⟨j, hj1, hj2, -⟩ := h
    omega
  | succ fuel ih =>
    intro k hex
    by_cases hc : genName base ext k ∈ names
    · obtain ⟨j, hj1, hj2, hj3⟩ := hex
      have hjne : j ≠ k := fun he => hj3 (he ▸ hc)
      obtain ⟨kk, h1, h2, h3, h4⟩ := ih (k + 1) ⟨j, by omega, by omega, hj3⟩
      refine ⟨kk, by omega, h2, ?_, ?_⟩
      · intro j2 hj21 hj22
        rcases Nat.eq_or_lt_of_le hj21 with he | hlt
        · exact he ▸ hc
        · exact h3 j2 hlt hj22
      · rw [firstFreeAux, if_pos hc]
        exact h4
    · exact ⟨k, le_rfl, hc, fun j hj1 hj2 => by omega,
        by rw [firstFreeAux, if_neg hc]⟩

/-- The destination name chosen on a collision is `base_k.ext` for
the smallest free `k ≥ 1`. -/
theorem uniqueDestName_spec (names : List (List Char)) (fileName : List Char)
    (h : fileName ∈ names) :
    ∃ k, 1 ≤ k ∧
      genName (extSplit fileName).1 (extSplit fileName).2 k ∉ names ∧
      (∀ j, 1 ≤ j → j < k →
        genName (extSplit fileName).1 (extSplit fileName).2 j ∈ names) ∧
      uniqueDestName names fileName =
        genName (extSplit fileName).1 (extSplit fileName).2 k := by
  obtain ⟨j, hj1, hj2, hj3⟩ :=
    exists_free_name names (extSplit fileName).1 (extSplit fileName).2
  obtain ⟨k, hk1, hk2, hk3, hk4⟩ :=
    firstFreeAux_spec names (extSplit fileName).1 (extSplit fileName).2
      (names.length + 1) 1 ⟨j, hj1, by omega, hj3⟩
  refine ⟨k, hk1, hk2, hk3, ?_⟩
  rw [uniqueDestName, if_pos h]
  exact hk4

/-! ## Lemmas about the drop protocol -/

theorem startsWithL_append (p r : List Char) : startsWithL p (p ++ r) = true := by
  induction p with
  | nil => rfl
  | cons c p2 ih => simp [startsWithL, ih]

/-- Any non-skipped entry issues the target listing first and then a
move whose destination carries the planned (possibly conflict-renamed)
name; and its report is never one of the skip outcomes. -/
theorem processEntry_shape (cli : Cli) (targetDir : List Char) (it : TreeItem)
    (hspec : isSpecialItem it.itemType = false)
    (hdir : jsDirOf it.resourcePath ≠ targetDir) :
    (processEntry cli targetDir it).2.take 2 =
      [CliCall.ls targetDir,
       CliCall.mv it.resourcePath
         (destPath targetDir (planName cli targetDir (basenameOf it.resourcePath)))] ∧
    (processEntry cli targetDir it).1 ≠ EntryReport.skippedSpecial ∧
    (processEntry cli targetDir it).1 ≠ EntryReport.skippedSameDir := by
  rw [processEntry]
  simp only [hspec, Bool.false_eq_true, if_false, hdir, ite_false]
  refine ⟨?_, ?_, ?_⟩ <;>
    · split
      all_goals try split
      all_goals try split
      all_goals try split
      all_goals simp

/-! ## Claims about the drop protocol -/

/-- Claim C2: when the target listing contains the dragged file's
name, the chosen destination name is `base_k.ext` for the smallest
`k ≥ 1` whose candidate is not in the listing, and that generated
name — not the original — is the destination of the issued move. -/
theorem c2_conflict_rename (cli : Cli) (targetDir : List Char) (it : TreeItem)
    (names : List (List Char))
    (hspec : isSpecialItem it.itemType = false)
    (hdir : jsDirOf it.resourcePath ≠ targetDir)
    (hls : cli.lsNames targetDir = some names)
    (hcoll : basenameOf it.resourcePath ∈ names) :
    ∃ k, 1 ≤ k ∧
      genName (extSplit (basenameOf it.resourcePath)).1
        (extSplit (basenameOf it.resourcePath)).2 k ∉ names ∧
      (∀ j, 1 ≤ j → j < k →
        genName (extSplit (basenameOf it.resourcePath)).1
          (extSplit (basenameOf it.resourcePath)).2 j ∈ names) ∧
      planName cli targetDir (basenameOf it.resourcePath) =
        genName (extSplit (basenameOf it.resourcePath)).1
          (extSplit (basenameOf it.resourcePath)).2 k ∧
      (processEntry cli targetDir it).2.take 2 =
        [CliCall.ls targetDir,
         CliCall.mv it.resourcePath (destPath targetDir
           (genName (extSplit (basenameOf it.resourcePath)).1
             (extSplit (basenameOf it.resourcePath)).2 k))] := by
  obtain ⟨k, hk1, hk2, hk3, hk4⟩ :=
    uniqueDestName_spec names (basenameOf it.resourcePath) hcoll
  have hpn : planName cli targetDir (basenameOf it.resourcePath) =
      genName (extSplit (basenameOf it.resourcePath)).1
        (extSplit (basenameOf it.resourcePath)).2 k := by
    rw [planName, hls]
    exact hk4
  have hshape := (processEntry_shape cli targetDir it hspec hdir).1
  rw [hpn] at hshape
  exact ⟨k, hk1, hk2, hk3, hpn, hshape⟩

/-- Concrete instances of claim C2: a colliding `FOO.PRG` becomes
`FOO_1.PRG`, then `FOO_2.PRG`; and the issued move targets the
generated name. -/
theorem c2_conflict_rename_witness :
    uniqueDestName [("FOO.PRG").data] (("FOO.PRG").data) = ("FOO_1.PRG").data ∧
    uniqueDestName [("FOO.PRG").data, ("FOO_1.PRG").data] (("FOO.PRG").data) =
      ("FOO_2.PRG").data ∧
    ∃ k, 1 ≤ k ∧
      genName (("FOO").data) ((".PRG").data) k ∉ [("FOO.PRG").data] ∧
      (∀ j, 1 ≤ j → j < k →
        genName (("FOO").data) ((".PRG").data) j ∈ [("FOO.PRG").data]) ∧
      planName cliListFoo (("/Usb1").data) (("FOO.PRG").data) =
        genName (("FOO").data) ((".PRG").data) k ∧
      (processEntry cliListFoo (("/Usb1").data) itemFooPrg).2.take 2 =
        [CliCall.ls (("/Usb1").data),
         CliCall.mv (("/Usb0/FOO.PRG").data) (destPath (("/Usb1").data)
           (genName (("FOO").data) ((".PRG").data) k))] := by
  refine ⟨by decide, by decide, ?_⟩
  have h := c2_conflict_rename cliListFoo (("/Usb1").data) itemFooPrg
    [("FOO.PRG").data] (by decide) (by decide) (by decide) (by decide)
  have hbase : basenameOf itemFooPrg.resourcePath = ("FOO.PRG").data := by decide
  have hsplit1 : (extSplit (("FOO.PRG").data)).1 = ("FOO").data := by decide
  have hsplit2 : (extSplit (("FOO.PRG").data)).2 = (".PRG").data := by decide
  rw [hbase, hsplit1, hsplit2] at h
  exact h

/-- Claim C3: when the move fails with the cross-device error class
(error text containing the code 450) and both the fallback copy and
the delete succeed, the entry's single report is a move success (its
message begins with the move wording), not a copy outcome. -/
theorem c3_crossdevice_reports_moved (cli : Cli) (targetDir : List Char) (it : TreeItem)
    (hspec : isSpecialItem it.itemType = false)
    (hdir : jsDirOf it.resourcePath ≠ targetDir)
    (hmv : (cli.mvRes it.resourcePath
      (destPath targetDir (planName cli targetDir (basenameOf it.resourcePath)))).success
      = false)
    (h450 : errHas450 (cli.mvRes it.resourcePath
      (destPath targetDir (planName cli targetDir (basenameOf it.resourcePath)))).error
      = true)
    (hcp : (cli.cpRes it.resourcePath
      (destPath targetDir (planName cli targetDir (basenameOf it.resourcePath)))).success
      = true)
    (hrm : (cli.rmRes it.resourcePath).success = true) :
    isMovedReport (processEntry cli targetDir it).1 = true ∧
    (∀ m, (processEntry cli targetDir it).1 ≠ EntryReport.copyFailed m) ∧
    (∀ m, (processEntry cli targetDir it).1 ≠ EntryReport.partialCopy m) ∧
    (∀ m, (processEntry cli targetDir it).1 ≠ EntryReport.moveFailed m) := by
  have hgoal : (processEntry cli targetDir it).1 =
      (if planName cli targetDir (basenameOf it.resourcePath) ≠
          basenameOf it.resourcePath then
        EntryReport.movedRenamed
          ((("Moved ").data) ++ basenameOf it.resourcePath ++ ((" to ").data) ++
            targetDir ++ (("/").data) ++
            planName cli targetDir (basenameOf it.resourcePath) ++
            ((" (renamed to avoid conflict)").data))
      else
        EntryReport.moved
          ((("Moved ").data) ++ basenameOf it.resourcePath ++ ((" to ").data) ++
            targetDir)) := by
    rw [processEntry]
    simp only [hspec, Bool.false_eq_true, if_false, hdir, ite_false, hmv, h450, hcp, hrm,
      Bool.not_false, Bool.not_true, Bool.true_and, Bool.and_true, if_true, ite_true,
      Bool.false_and, Bool.and_false]
  rw [hgoal]
  by_cases hr : planName cli targetDir (basenameOf it.resourcePath) =
      basenameOf it.resourcePath
  · simp [hr, isMovedReport]
  · simp [hr, isMovedReport]

/-- Concrete instance of claim C3: with a 450 move failure and a
successful copy and delete, the drop of `/Usb0/FOO.PRG` onto `/Usb1`
reports a move. -/
theorem c3_crossdevice_reports_moved_witness :
    isMovedReport (processEntry cliCross (("/Usb1").data) itemFooPrg).1 = true ∧
    (∀ m, (processEntry cliCross (("/Usb1").data) itemFooPrg).1 ≠
      EntryReport.copyFailed m) :=
  ⟨(c3_crossdevice_reports_moved cliCross (("/Usb1").data) itemFooPrg
      (by decide) (by decide) (by decide) (by decide) (by decide) (by decide)).1,
   (c3_crossdevice_reports_moved cliCross (("/Usb1").data) itemFooPrg
      (by decide) (by decide) (by decide) (by decide) (by decide) (by decide)).2.1⟩

/-- Claim C4, counterexample: on a cross-device move of
`/Usb0/FOO.PRG` into `/Usb1` where the copy succeeds and the delete
fails, the reported partial message is `Copied FOO.PRG but failed to
delete original: disk full`, which mentions neither the new location
(`/Usb1/FOO.PRG`, nor even `/Usb1`) nor the original location
`/Usb0/FOO.PRG` — so the claim that the message mentions both
locations is false of the code. -/
theorem c4_counterexample :
    (processEntry cliPartial (("/Usb1").data) itemFooPrg).1 =
      EntryReport.partialCopy
        (("Copied FOO.PRG but failed to delete original: disk full").data) ∧
    containsSub (("/Usb1/FOO.PRG").data)
      (("Copied FOO.PRG but failed to delete original: disk full").data) = false ∧
    containsSub (("/Usb1").data)
      (("Copied FOO.PRG but failed to delete original: disk full").data) = false ∧
    containsSub (("/Usb0/FOO.PRG").data)
      (("Copied FOO.PRG but failed to delete original: disk full").data) = false := by
  decide

/-- Claim C4 (amended): when the cross-device fallback's copy
succeeds and the delete of the source fails, the entry is reported
with the distinct partial outcome — naming the copied file and
stating that the original could not be deleted — and is reported
neither as a plain move success nor as a plain move/copy failure. -/
theorem c4_partial_outcome (cli : Cli) (targetDir : List Char) (it : TreeItem)
    (hspec : isSpecialItem it.itemType = false)
    (hdir : jsDirOf it.resourcePath ≠ targetDir)
    (hmv : (cli.mvRes it.resourcePath
      (destPath targetDir (planName cli targetDir (basenameOf it.resourcePath)))).success
      = false)
    (h450 : errHas450 (cli.mvRes it.resourcePath
      (destPath targetDir (planName cli targetDir (basenameOf it.resourcePath)))).error
      = true)
    (hcp : (cli.cpRes it.resourcePath
      (destPath targetDir (planName cli targetDir (basenameOf it.resourcePath)))).success
      = true)
    (hrm : (cli.rmRes it.resourcePath).success = false) :
    (processEntry cli targetDir it).1 =
      EntryReport.partialCopy
        ((("Copied ").data) ++ basenameOf it.resourcePath ++
          ((" but failed to delete original: ").data) ++
          errText (cli.rmRes it.resourcePath).error) ∧
    isMovedReport (processEntry cli targetDir it).1 = false ∧
    (∀ m, (processEntry cli targetDir it).1 ≠ EntryReport.moveFailed m) ∧
    (∀ m, (processEntry cli targetDir it).1 ≠ EntryReport.copyFailed m) := by
  have hmain : (processEntry cli targetDir it).1 =
      EntryReport.partialCopy
        ((("Copied ").data) ++ basenameOf it.resourcePath ++
          ((" but failed to delete original: ").data) ++
          errText (cli.rmRes it.resourcePath).error) := by
    rw [processEntry]
    simp only [hspec, Bool.false_eq_true, if_false, hdir, ite_false, hmv, h450, hcp, hrm,
      Bool.not_false, Bool.not_true, Bool.true_and, Bool.and_true, if_true, ite_true]
  refine ⟨hmain, ?_, ?_, ?_⟩
  · rw [hmain]; rfl
  · intro m; rw [hmain]; simp
  · intro m; rw [hmain]; simp

/-- Concrete instance of the amended claim C4. -/
theorem c4_partial_outcome_witness :
    (processEntry cliPartial (("/Usb1").data) itemFooPrg).1 =
      EntryReport.partialCopy
        ((("Copied ").data) ++ basenameOf itemFooPrg.resourcePath ++
          ((" but failed to delete original: ").data) ++
          errText (cliPartial.rmRes itemFooPrg.resourcePath).error) :=
  (c4_partial_outcome cliPartial (("/Usb1").data) itemFooPrg
    (by decide) (by decide) (by decide) (by decide) (by decide) (by decide)).1

/-- Claim C5: when the resolved target directory of a drop is the
filesystem root `/`, the whole batch is rejected before any CLI call:
no `fs ls`, `fs mv`, `fs cp` or `fs rm` invocation is issued. -/
theorem c5_root_drop_rejected (cli : Cli) (target : Option TreeItem)
    (items : List TreeItem)
    (h : resolveTargetDir target = ("/").data) :
    (handleDrop cli target items).2.2 = [] ∧
    (handleDrop cli target items).1 = false := by
  constructor <;> simp [handleDrop, h]

/-- Concrete instance of claim C5: dropping onto the tree background
(no target resolves to the root) issues zero CLI calls. -/
theorem c5_root_drop_rejected_witness :
    (handleDrop cliCross none [itemFooPrg]).2.2 = [] ∧
    (handleDrop cliCross none [itemFooPrg]).1 = false :=
  c5_root_drop_rejected cliCross none [itemFooPrg] (by decide)

/-- Claim C10: when the pre-move listing of the target directory
fails (`executeC64UJson` returns `null`), the entry is neither
aborted nor reported as a listing error: the collision check is
bypassed and the move is attempted with the original, un-renamed
filename. -/
theorem c10_listing_failure_bypasses_rename (cli : Cli) (targetDir : List Char)
    (it : TreeItem)
    (hspec : isSpecialItem it.itemType = false)
    (hdir : jsDirOf it.resourcePath ≠ targetDir)
    (hls : cli.lsNames targetDir = none) :
    (processEntry cli targetDir it).2.take 2 =
      [CliCall.ls targetDir,
       CliCall.mv it.resourcePath (destPath targetDir (basenameOf it.resourcePath))] ∧
    (processEntry cli targetDir it).1 ≠ EntryReport.skippedSpecial ∧
    (processEntry cli targetDir it).1 ≠ EntryReport.skippedSameDir := by
  have hpn : planName cli targetDir (basenameOf it.resourcePath) =
      basenameOf it.resourcePath := by
    rw [planName, hls]
  have h := processEntry_shape cli targetDir it hspec hdir
  rw [hpn] at h
  exact h

/-- Concrete instance of claim C10: with a failing listing, the move
of `/Usb0/FOO.PRG` into `/Usb1` is attempted at `/Usb1/FOO.PRG`. -/
theorem c10_listing_failure_bypasses_rename_witness :
    (processEntry cliLsFails (("/Usb1").data) itemFooPrg).2.take 2 =
      [CliCall.ls (("/Usb1").data),
       CliCall.mv (("/Usb0/FOO.PRG").data)
         (destPath (("/Usb1").data) (basenameOf itemFooPrg.resourcePath))] :=
  (c10_listing_failure_bypasses_rename cliLsFails (("/Usb1").data) itemFooPrg
    (by decide) (by decide) (by decide)).1

/-! ## Claim about the save-upload guard -/

/-- Claim C8: a save event for a path already in the upload-guard set
starts no upload and leaves the state unchanged (dropped, not
queued); and after an upload completes — success, reported failure,
or thrown error — the path is no longer in the guard set. -/
theorem c8_upload_guard :
    (∀ st p, p ∈ st.uploading → saveDecision st p = (false, st)) ∧
    (∀ st p o, p ∉ (finishUpload st p o).uploading) := by
  constructor
  · intro st p hp
    rw [saveDecision]
    cases hlk : lookupMap st.fileMap p with
    | none => rfl
    | some c =>
      by_cases ht : c.isText = true
      · simp [ht, hp]
      · simp [ht]
  · intro st p o
    cases o <;> simp [finishUpload, List.mem_filter]

/-- Concrete instance of claim C8: an in-flight path's second save is
dropped, and the path leaves the guard set after the upload ends. -/
theorem c8_upload_guard_witness :
    saveDecision
        ⟨[((("/cache/main.asm").data),
           ⟨(("/cache/main.asm").data), (("/SD0/main.asm").data), true⟩)],
         [(("/cache/main.asm").data)]⟩ (("/cache/main.asm").data) =
      (false,
        ⟨[((("/cache/main.asm").data),
           ⟨(("/cache/main.asm").data), (("/SD0/main.asm").data), true⟩)],
         [(("/cache/main.asm").data)]⟩) ∧
    (("/cache/main.asm").data) ∉
      (finishUpload ⟨[], [(("/cache/main.asm").data)]⟩ (("/cache/main.asm").data)
        UploadOutcome.ok).uploading :=
  ⟨c8_upload_guard.1 _ _ (by decide), c8_upload_guard.2 _ _ _⟩

end C64
